import Mathlib

/-!
Verification of the spectro-cleanup resource cleanup orchestrator
(`cleaner` package) against its natural-language specification.

The Go source is shallowly embedded: pure data types become Lean
structures, the Kubernetes dynamic client becomes an explicit `Backend`
oracle (a record of response functions), goroutine fan-out becomes an
explicit execution order (a permutation of the items, universally
quantified in the theorems), and durations become rationals (Go floats
and `time.Duration` arithmetic, without the final integer truncation,
which none of the proved bounds depend on).
-/

namespace SpectroCleanup

/-- GroupVersionResource triple identifying a resource kind
(`schema.GroupVersionResource`). -/
structure GVR where
  group : String
  version : String
  resource : String
deriving DecidableEq, Repr

/-- `clusterRoleGVR` from the source. -/
def clusterRoleGVR : GVR := ⟨"rbac.authorization.k8s.io", "v1", "clusterroles"⟩

/-- `clusterRoleBindingGVR` from the source. -/
def clusterRoleBindingGVR : GVR := ⟨"rbac.authorization.k8s.io", "v1", "clusterrolebindings"⟩

/-- `roleGVR` from the source. -/
def roleGVR : GVR := ⟨"rbac.authorization.k8s.io", "v1", "roles"⟩

/-- `roleBindingGVR` from the source. -/
def roleBindingGVR : GVR := ⟨"rbac.authorization.k8s.io", "v1", "rolebindings"⟩

/-- `namespaceGVR` from the source. -/
def namespaceGVR : GVR := ⟨"", "v1", "namespaces"⟩

/-- `serviceAccountGVR` from the source. -/
def serviceAccountGVR : GVR := ⟨"", "v1", "serviceaccounts"⟩

/-- One entry of the resource deletion plan (`DeleteObj` in the source).
`ns` is the Go field `Namespace` (a Lean keyword). -/
structure DeleteObj where
  gvr : GVR
  name : String
  ns : String
  mustDelete : Bool
deriving DecidableEq, Repr

/-- The `Cleaner` configuration struct (fields relevant to resource
cleanup; `CleanupTimeout` is kept as a rational number of nanoseconds). -/
structure Cleaner where
  cleanupTimeout : ℚ
  deletionInterval : ℚ
  deletionTimeout : ℚ
  blockingDeletion : Bool
  saName : String
  roleName : String
  roleBindingName : String
  clusterRoleName : String
  clusterRoleBindingName : String
deriving DecidableEq, Repr

/-- `Cleaner.UseClusterRole`: true iff both cluster role and cluster role
binding names are set. -/
def UseClusterRole (c : Cleaner) : Bool :=
  c.clusterRoleName != "" && c.clusterRoleBindingName != ""

/-- A backend error as observed by the cleaner: whether
`apierrors.IsNotFound` holds, whether it is a `net.Error` with
`Timeout() == true`, and the `err.Error()` message text. -/
structure KubeError where
  notFound : Bool
  netTimeout : Bool
  msg : String
deriving DecidableEq, Repr

/-- Substring containment on character lists (helper for embedding Go
`strings.Contains`). -/
def listContainsSub (pat : List Char) : List Char → Bool
  | [] => pat.isEmpty
  | c :: rest => pat.isPrefixOf (c :: rest) || listContainsSub pat rest

/-- Substring containment, used to embed Go `strings.Contains`. -/
def containsSubstring (s pat : String) : Bool :=
  listContainsSub pat.data s.data

/-- `retryable` from the source: retry on network timeouts and on
TLS handshake timeouts; everything else is not retried. -/
def retryable (e : KubeError) : Bool :=
  e.netTimeout || containsSubstring e.msg "TLS handshake timeout"

/-- `wait.Backoff` parameters (k8s.io/apimachinery). Durations are
rational nanoseconds. -/
structure Backoff where
  steps : Nat
  duration : ℚ
  factor : ℚ
  jitter : ℚ
  cap : ℚ
deriving DecidableEq, Repr

/-- The backoff policy hard-coded in `deleteResource`:
5 steps, 1s base, factor 2.0, 10% jitter, 30s cap. -/
def cleanupBackoff : Backoff := ⟨5, 1000000000, 2, 1/10, 30000000000⟩

/-- `wait.Jitter duration maxFactor` with explicit random sample
`r ∈ [0,1)` standing for `rand.Float64()`: returns
`duration + r*maxFactor*duration` (a nonnegative additive jitter). -/
def jitterDur (d maxFactor r : ℚ) : ℚ := d + r * maxFactor * d

/-- Fused embedding of `retry.OnError` and `wait.ExponentialBackoff`
(k8s.io/client-go, k8s.io/apimachinery), the retry combinator used by
`deleteResource`. `fn i` is the outcome of the i-th invocation of the
delete closure (`none` = success); `r i` is the random jitter sample of
the i-th sleep. Returns the surfaced error (`OnError` replaces the
`ErrWaitTimeout` of an exhausted budget by the last retriable error),
the number of attempts made, and the list of sleeps performed. The
library's cap branch (`next > cap` zeroes the remaining steps, so the
following loop iteration exits with the last error) is inlined as an
immediate base case to keep the recursion structural. -/
def retryLoop (retriable : KubeError → Bool) (fn : Nat → Option KubeError) (r : Nat → ℚ)
    (factor jitter cap : ℚ) :
    Nat → ℚ → Nat → Option KubeError → Option KubeError × Nat × List ℚ
  | 0, _dur, _i, lastErr => (lastErr, 0, [])
  | steps + 1, dur, i, _lastErr =>
    match fn i with
    | none => (none, 1, [])
    | some e =>
      if retriable e then
        if steps = 0 then (some e, 1, [])
        else
          let w := if 0 < jitter then jitterDur dur jitter (r i) else dur
          if factor ≠ 0 ∧ 0 < cap ∧ cap < dur * factor then
            -- cap reached: remaining steps zeroed, next iteration times out
            (some e, 1, [w])
          else
            let dur' := if factor ≠ 0 then dur * factor else dur
            let out := retryLoop retriable fn r factor jitter cap steps dur' (i + 1) (some e)
            (out.1, out.2.1 + 1, w :: out.2.2)
      else (some e, 1, [])

/-- `retry.OnError backoff retriable fn` entry point. -/
def retryOnError (b : Backoff) (retriable : KubeError → Bool)
    (fn : Nat → Option KubeError) (r : Nat → ℚ) : Option KubeError × Nat × List ℚ :=
  retryLoop retriable fn r b.factor b.jitter b.cap b.steps b.duration 0 none

/-- The delete closure built inside `deleteResource`: issue the delete
call; a NotFound response is logged and treated as success, any other
error is passed through. `delResp i` is the backend's response to the
i-th delete attempt (`none` = the call succeeded). -/
def deleteClosure (delResp : Nat → Option KubeError) (i : Nat) : Option KubeError :=
  match delResp i with
  | none => none
  | some e => if e.notFound then none else some e

example :
    retryOnError cleanupBackoff retryable
      (deleteClosure fun _ => some ⟨true, false, "not found"⟩) (fun _ => 0) =
    (none, 1, []) := by
  norm_num [retryOnError, retryLoop, cleanupBackoff, deleteClosure]

example :
    retryOnError cleanupBackoff retryable
      (deleteClosure fun _ => some ⟨false, false, "boom"⟩) (fun _ => 0) =
    (some ⟨false, false, "boom"⟩, 1, []) := by
  norm_num [retryOnError, retryLoop, cleanupBackoff, deleteClosure,
    show retryable ⟨false, false, "boom"⟩ = false from by decide]

example :
    (retryOnError cleanupBackoff retryable
      (deleteClosure fun _ => some ⟨false, true, "timeout"⟩) (fun _ => 0)).2.1 = 5 := by
  norm_num [retryOnError, retryLoop, cleanupBackoff, deleteClosure, jitterDur,
    show retryable ⟨false, true, "timeout"⟩ = true from by decide]

/-- A resource instance returned by a list call (the `GetName` and
`GetNamespace` of an `unstructured.Unstructured` item). -/
structure Item where
  name : String
  ns : String
deriving DecidableEq, Repr

/-- An owner reference descriptor (`metav1.OwnerReference`). -/
structure OwnerReference where
  apiVersion : String
  kind : String
  name : String
  uid : String
deriving DecidableEq, Repr

/-- The fields of an unstructured object the cleaner reads and writes:
identity (`GetAPIVersion`, `GetKind`, `GetName`, `GetUID`) and
`GetOwnerReferences`/`SetOwnerReferences`. -/
structure KObj where
  apiVersion : String
  kind : String
  name : String
  uid : String
  ownerReferences : List OwnerReference
deriving DecidableEq, Repr

/-- The Kubernetes dynamic client (`dynamic.Interface`) as a response
oracle: one field per request family the cleaner issues. Responses are a
function of the request only (a stateless backend); object state for the
ownership-chaining step lives in `lookup` and is updated by `Update`. -/
structure Backend where
  /-- Names of the namespaces returned by listing `namespaceGVR`. -/
  namespaces : List String
  /-- Error of the namespace list call, if any. -/
  nsListErr : Option KubeError
  /-- Error returned when listing a GVR in a namespace, if any. -/
  listErr : GVR → String → Option KubeError
  /-- Items returned when listing a GVR in a namespace. -/
  listItems : GVR → String → List Item
  /-- Response to a delete call (`none` = accepted). -/
  delResp : GVR → String → String → Option KubeError
  /-- Outcome of polling a resource for absence (`waitForDeletion`):
  `none` = confirmed absent within the timeout. -/
  verifyResp : GVR → String → String → Option KubeError
  /-- Object returned by a Get call (`none` = not found). -/
  lookup : GVR → String → String → Option KObj
  /-- Error returned by an Update call, if any. -/
  updateErr : GVR → String → String → Option KubeError

/-- Replace the object stored at one key after a successful Update. -/
def updateStore (be : Backend) (gvr : GVR) (ns name : String) (obj : KObj) : Backend :=
  ⟨be.namespaces, be.nsListErr, be.listErr, be.listItems, be.delResp, be.verifyResp,
   fun g n m => if g = gvr ∧ n = ns ∧ m = name then some obj else be.lookup g n m,
   be.updateErr⟩

/-- Observable backend interactions of a cleanup run, used to state the
ordering and no-op properties. One `deleteCall` event stands for an
initiation (the delete-with-retry call for one instance); one `verify`
event stands for entering the absence poll for one instance. -/
inductive Event
  | listNamespaces
  | list (gvr : GVR) (ns : String)
  | deleteCall (gvr : GVR) (ns : String) (name : String)
  | verify (gvr : GVR) (ns : String) (name : String)
deriving DecidableEq, Repr

/-- True for `verify` events. -/
def Event.isVerify : Event → Bool
  | .verify _ _ _ => true
  | _ => false

/-- True for `deleteCall` events. -/
def Event.isDeleteCall : Event → Bool
  | .deleteCall _ _ _ => true
  | _ => false

/-- Errors surfaced by the cleaner, mirroring the `fmt.Errorf` wrappings
of the source. -/
inductive CleanErr
  | configRead (msg : String)
  | configParse (msg : String)
  | retryFailed (e : KubeError)
  | verifyFailed (e : KubeError)
  | listFailed (e : KubeError)
  | itemDelete (name : String) (e : CleanErr)
  | itemVerify (name : String) (e : KubeError)
  | ownerGet (e : KubeError)
  | ownerUpdate (e : KubeError)
  | resourceDeletionFailed (e : CleanErr)
deriving DecidableEq, Repr

/-- `waitForDeletion`: poll until the resource is gone or the deletion
timeout elapses. The poll loop (`wait.PollUntilContextTimeout`) is
represented by its outcome oracle `verifyResp`; the claims under proof
concern only when verification is entered and how its error propagates. -/
def waitForDeletion (be : Backend) (gvr : GVR) (ns name : String) :
    List Event × Option KubeError :=
  ([Event.verify gvr ns name], be.verifyResp gvr ns name)

/-- `deleteResource`: delete one resource with retries, then optionally
wait for confirmed absence. Returns the trace of backend interactions,
the returned error, the number of delete attempts, and the backoff
sleeps. `r` supplies the jitter samples. -/
def deleteResource (be : Backend) (obj : DeleteObj) (name ns : String)
    (waitForDel : Bool) (r : Nat → ℚ) :
    List Event × Option CleanErr × Nat × List ℚ :=
  let fn := deleteClosure (fun _ => be.delResp obj.gvr ns name)
  let out := retryOnError cleanupBackoff retryable fn r
  let retryRes : Option CleanErr :=
    match out.1 with
    | some e => if obj.mustDelete then some (.retryFailed e) else none
    | none => none
  match retryRes with
  | some err => ([Event.deleteCall obj.gvr ns name], some err, out.2.1, out.2.2)
  | none =>
    if waitForDel then
      let w := waitForDeletion be obj.gvr ns name
      (Event.deleteCall obj.gvr ns name :: w.1, w.2.map .verifyFailed, out.2.1, out.2.2)
    else ([Event.deleteCall obj.gvr ns name], none, out.2.1, out.2.2)

/-- `deleteSingleResource`: delete the named resource, blocking on
confirmed absence iff `BlockingDeletion` is set. -/
def deleteSingleResource (c : Cleaner) (be : Backend) (obj : DeleteObj) (r : Nat → ℚ) :
    List Event × Option CleanErr × Nat × List ℚ :=
  deleteResource be obj obj.name obj.ns c.blockingDeletion r

/-- The namespace a bulk item is deleted in: the item's own namespace,
falling back to the directive's when the item has none. -/
def resolveNs (obj : DeleteObj) (it : Item) : String :=
  if it.ns == "" then obj.ns else it.ns

/-- The per-namespace listing loop of `deleteAllResources`: skip
namespaces filtered out by a non-empty directive namespace, list the
rest in order obtaining the aggregated item set, stopping at the first
list error. -/
def listLoop (be : Backend) (obj : DeleteObj) :
    List String → List Event × Except KubeError (List Item)
  | [] => ([], .ok [])
  | ns :: rest =>
    if obj.ns != "" && obj.ns != ns then listLoop be obj rest
    else
      match be.listErr obj.gvr ns with
      | some e => ([Event.list obj.gvr ns], .error e)
      | none =>
        let out := listLoop be obj rest
        (Event.list obj.gvr ns :: out.1,
         match out.2 with
         | .ok items => .ok (be.listItems obj.gvr ns ++ items)
         | .error e => .error e)

/-- `initiateParallelDeletions`: one goroutine per item performs
delete-with-retry (no wait); `MustDelete` failures are collected in the
error channel; after the join, the first collected error is returned
when `MustDelete` is set. `ord` is the order in which the concurrent
tasks are observed to run (an arbitrary permutation of the items). -/
def initiateParallelDeletions (be : Backend) (obj : DeleteObj)
    (ord : List Item) (r : Nat → ℚ) : List Event × Option CleanErr :=
  let runs := ord.map (fun it =>
    let ns := resolveNs obj it
    let out := deleteResource be obj it.name ns false r
    let sent : Option CleanErr :=
      match out.2.1 with
      | some e => if obj.mustDelete then some (.itemDelete it.name e) else none
      | none => none
    (out.1, sent))
  let errChan := runs.filterMap (·.2)
  ((runs.map (·.1)).flatten, if obj.mustDelete then errChan.head? else none)

/-- `verifyParallelDeletions`: one goroutine per item polls for absence;
`MustDelete` failures are collected and the first is returned after the
join. `ord` is the observed execution order of the concurrent tasks. -/
def verifyParallelDeletions (be : Backend) (obj : DeleteObj)
    (ord : List Item) : List Event × Option CleanErr :=
  let runs := ord.map (fun it =>
    let ns := resolveNs obj it
    let w := waitForDeletion be obj.gvr ns it.name
    let sent : Option CleanErr :=
      match w.2 with
      | some e => if obj.mustDelete then some (.itemVerify it.name e) else none
      | none => none
    (w.1, sent))
  let errChan := runs.filterMap (·.2)
  ((runs.map (·.1)).flatten, if obj.mustDelete then errChan.head? else none)

/-- `deleteAllResourcesBlocking`: initiate all deletions in parallel,
then (if that returned no error) verify all deletions in parallel. -/
def deleteAllResourcesBlocking (be : Backend) (obj : DeleteObj)
    (ord1 ord2 : List Item) (r : Nat → ℚ) : List Event × Option CleanErr :=
  let p1 := initiateParallelDeletions be obj ord1 r
  match p1.2 with
  | some e => (p1.1, some e)
  | none =>
    let p2 := verifyParallelDeletions be obj ord2
    (p1.1 ++ p2.1, p2.2)

/-- `deleteAllResourcesNonBlocking`: sequentially initiate deletion for
each item; a `MustDelete` failure aborts immediately. -/
def deleteAllResourcesNonBlocking (be : Backend) (obj : DeleteObj) (r : Nat → ℚ) :
    List Item → List Event × Option CleanErr
  | [] => ([], none)
  | it :: rest =>
    let ns := resolveNs obj it
    let out := deleteResource be obj it.name ns false r
    match out.2.1 with
    | some e =>
      if obj.mustDelete then (out.1, some e)
      else
        let next := deleteAllResourcesNonBlocking be obj r rest
        (out.1 ++ next.1, next.2)
    | none =>
      let next := deleteAllResourcesNonBlocking be obj r rest
      (out.1 ++ next.1, next.2)

/-- `deleteAllResources`: list every namespace, aggregate matching items
from the non-filtered namespaces, succeed as a no-op when nothing
matched, otherwise dispatch to the blocking or non-blocking bulk path.
`sched1`/`sched2` choose the observed execution order of each concurrent
phase. -/
def deleteAllResources (c : Cleaner) (be : Backend) (obj : DeleteObj)
    (sched1 sched2 : List Item → List Item) (r : Nat → ℚ) :
    List Event × Option CleanErr :=
  match be.nsListErr with
  | some e => ([Event.listNamespaces], some (.listFailed e))
  | none =>
    let lout := listLoop be obj be.namespaces
    match lout.2 with
    | .error e => (Event.listNamespaces :: lout.1, some (.listFailed e))
    | .ok items =>
      if items.isEmpty then (Event.listNamespaces :: lout.1, none)
      else if c.blockingDeletion then
        let bout := deleteAllResourcesBlocking be obj (sched1 items) (sched2 items) r
        (Event.listNamespaces :: lout.1 ++ bout.1, bout.2)
      else
        let bout := deleteAllResourcesNonBlocking be obj r items
        (Event.listNamespaces :: lout.1 ++ bout.1, bout.2)

/-- Get and Update calls performed by the ownership chaining step, in
program order. -/
inductive ChainCall
  | get (gvr : GVR) (ns : String) (name : String)
  | update (gvr : GVR) (ns : String) (name : String)
deriving DecidableEq, Repr

/-- The NotFound error a Get call produces when the object is absent. -/
def kNotFoundErr : KubeError := ⟨true, false, "not found"⟩

/-- `setOwnerReferenceForResource`: fetch one supporting object, append
the owner reference to its owner-reference list, and write it back.
Returns the calls performed and either the failure or the updated
backend state. -/
def setOwnerReferenceForResource (be : Backend) (ns name : String)
    (ownerRef : OwnerReference) (gvr : GVR) :
    List ChainCall × Except CleanErr Backend :=
  match be.lookup gvr ns name with
  | none => ([ChainCall.get gvr ns name], .error (.ownerGet kNotFoundErr))
  | some resource =>
    let resource' : KObj :=
      ⟨resource.apiVersion, resource.kind, resource.name, resource.uid,
       resource.ownerReferences ++ [ownerRef]⟩
    match be.updateErr gvr ns name with
    | some e =>
      ([ChainCall.get gvr ns name, ChainCall.update gvr ns name], .error (.ownerUpdate e))
    | none =>
      ([ChainCall.get gvr ns name, ChainCall.update gvr ns name],
       .ok (updateStore be gvr ns name resource'))

/-- `setOwnerReferences`: fetch the top-level resource the (last)
directive identifies, build an owner-reference descriptor from it, and
stamp it onto the service account and then onto either the cluster
role/cluster role binding pair or the role/role binding pair, chosen by
`UseClusterRole`. Any fetch or update failure aborts. -/
def setOwnerReferences (c : Cleaner) (be : Backend) (obj : DeleteObj) :
    List ChainCall × Except CleanErr Backend :=
  match be.lookup obj.gvr obj.ns obj.name with
  | none => ([ChainCall.get obj.gvr obj.ns obj.name], .error (.ownerGet kNotFoundErr))
  | some owner =>
    let ownerRef : OwnerReference := ⟨owner.apiVersion, owner.kind, owner.name, owner.uid⟩
    let ev0 := ChainCall.get obj.gvr obj.ns obj.name
    let s1 := setOwnerReferenceForResource be obj.ns c.saName ownerRef serviceAccountGVR
    match s1.2 with
    | .error e => (ev0 :: s1.1, .error e)
    | .ok be1 =>
      if UseClusterRole c then
        let s2 := setOwnerReferenceForResource be1 "" c.clusterRoleName ownerRef clusterRoleGVR
        match s2.2 with
        | .error e => (ev0 :: s1.1 ++ s2.1, .error e)
        | .ok be2 =>
          let s3 := setOwnerReferenceForResource be2 "" c.clusterRoleBindingName ownerRef
            clusterRoleBindingGVR
          (ev0 :: s1.1 ++ s2.1 ++ s3.1, s3.2)
      else
        let s2 := setOwnerReferenceForResource be1 obj.ns c.roleName ownerRef roleGVR
        match s2.2 with
        | .error e => (ev0 :: s1.1 ++ s2.1, .error e)
        | .ok be2 =>
          let s3 := setOwnerReferenceForResource be2 obj.ns c.roleBindingName ownerRef
            roleBindingGVR
          (ev0 :: s1.1 ++ s2.1 ++ s3.1, s3.2)

/-- How the self-destruct wait before the last directive resolved. -/
inductive SelfDestructResolution
  | immediate
  | notified (t : ℚ)
  | timedOut
deriving DecidableEq, Repr

/-- The self-destruct coordination before the last directive: with
blocking deletion, self destruct immediately; otherwise race the
notification channel against `time.After(CleanupTimeout)`. `signalAt`
is the instant (if any) at which a `FinalizeCleanup` notification
becomes available on the channel; the `select` resolves on whichever of
the two events occurs first. -/
def selfDestructWait (c : Cleaner) (signalAt : Option ℚ) : SelfDestructResolution :=
  if c.blockingDeletion then .immediate
  else
    match signalAt with
    | some t => if t < c.cleanupTimeout then .notified t else .timedOut
    | none => .timedOut

/-- State of the module-level notification channel pointer `notif`:
either `*notif == nil` or an open channel. -/
inductive NotifState
  | nilRef
  | openChan
deriving DecidableEq, Repr

/-- The initial state `var notif = new(chan bool)`: a pointer to a nil
channel. -/
def initialNotifState : NotifState := .nilRef

/-- Outcome of a `FinalizeCleanup` RPC. -/
inductive FinalizeOutcome
  | rejected
  | delivered
deriving DecidableEq, Repr

/-- `FinalizeCleanup`: reject with `ErrIllegalCleanupNotification` when
`*notif == nil`, otherwise send `true` on the channel (the send blocks
until the coordinator receives it; the call then succeeds). -/
def FinalizeCleanup : NotifState → FinalizeOutcome
  | .nilRef => .rejected
  | .openChan => .delivered

/-- What the filesystem holds at a config path. -/
inductive FileRead
  | absent
  | readFailure (msg : String)
  | content (s : String)
deriving DecidableEq, Repr

/-- `readConfig`: a missing file is skipped (nil bytes, no error), any
other read error is fatal, otherwise the raw bytes are returned. -/
def readConfig : FileRead → Except String (Option String)
  | .absent => .ok none
  | .readFailure m => .error ("failed to read config file: " ++ m)
  | .content s => .ok (some s)

/-- `json.Unmarshal` applied to the bytes `readConfig` returned, with
the parser for well-formed content supplied as an oracle. Unmarshalling
nil bytes (the absent-file case) fails with Go's
"unexpected end of JSON input" error: `CleanupResources`, unlike
`CleanupFiles`, has no nil-bytes check before unmarshalling. -/
def jsonUnmarshalDeleteObjs (parse : String → Except String (List DeleteObj)) :
    Option String → Except String (List DeleteObj)
  | none => .error "unexpected end of JSON input"
  | some s => parse s

/-- Inputs of one `CleanupResources` run that the embedding treats as
oracles: the backend, the config file state and parser, the arrival
time of a notification, the observed execution orders of the two
concurrent bulk phases, and the jitter samples. -/
structure RunEnv where
  be : Backend
  fileRead : FileRead
  parse : String → Except String (List DeleteObj)
  signalAt : Option ℚ
  sched1 : List Item → List Item
  sched2 : List Item → List Item
  r : Nat → ℚ

/-- Output of the directive loop: backend interaction trace,
self-destruct resolutions (in order), ownership-chaining runs (their
call traces, in order), and the returned error. -/
structure LoopOut where
  evs : List Event
  waits : List SelfDestructResolution
  chains : List (List ChainCall)
  err : Option CleanErr
deriving DecidableEq, Repr

/-- The directive loop of `CleanupResources`: for the final directive,
first set owner references and run the self-destruct wait; then
dispatch to the single or bulk deleter; a failure of a `MustDelete`
directive aborts the loop. -/
def cleanupLoop (c : Cleaner) (env : RunEnv) : List DeleteObj → LoopOut
  | [] => ⟨[], [], [], none⟩
  | obj :: rest =>
    if rest.isEmpty then
      let chain := setOwnerReferences c env.be obj
      match chain.2 with
      | .error e => ⟨[], [], [chain.1], some e⟩
      | .ok _ =>
        let w := selfDestructWait c env.signalAt
        let dout :=
          if obj.name == "" then deleteAllResources c env.be obj env.sched1 env.sched2 env.r
          else
            let s := deleteSingleResource c env.be obj env.r
            (s.1, s.2.1)
        match dout.2 with
        | some e =>
          if obj.mustDelete then ⟨dout.1, [w], [chain.1], some (.resourceDeletionFailed e)⟩
          else ⟨dout.1, [w], [chain.1], none⟩
        | none => ⟨dout.1, [w], [chain.1], none⟩
    else
      let dout :=
        if obj.name == "" then deleteAllResources c env.be obj env.sched1 env.sched2 env.r
        else
          let s := deleteSingleResource c env.be obj env.r
          (s.1, s.2.1)
      match dout.2 with
      | some e =>
        if obj.mustDelete then ⟨dout.1, [], [], some (.resourceDeletionFailed e)⟩
        else
          let next := cleanupLoop c env rest
          ⟨dout.1 ++ next.evs, next.waits, next.chains, next.err⟩
      | none =>
        let next := cleanupLoop c env rest
        ⟨dout.1 ++ next.evs, next.waits, next.chains, next.err⟩

/-- Result of one `CleanupResources` run. -/
structure RunOut where
  err : Option CleanErr
  notif : NotifState
  evs : List Event
  waits : List SelfDestructResolution
  chains : List (List ChainCall)
deriving DecidableEq, Repr

/-- `CleanupResources`: read and parse the resource config, create the
notification channel, walk the directives, and on normal loop
completion close the channel and clear the reference. Error returns
from inside the loop leave the channel reference as it was at that
point (open); config errors return before the channel is created. -/
def CleanupResources (c : Cleaner) (env : RunEnv) (notif0 : NotifState) : RunOut :=
  match readConfig env.fileRead with
  | .error m => ⟨some (.configRead m), notif0, [], [], []⟩
  | .ok bytes =>
    match jsonUnmarshalDeleteObjs env.parse bytes with
    | .error m => ⟨some (.configParse m), notif0, [], [], []⟩
    | .ok resources =>
      let lo := cleanupLoop c env resources
      match lo.err with
      | some e => ⟨some e, .openChan, lo.evs, lo.waits, lo.chains⟩
      | none => ⟨none, .nilRef, lo.evs, lo.waits, lo.chains⟩

/-! ## Helper lemmas -/

theorem flatten_map_singleton {α β : Type} (l : List α) (g : α → β) :
    (l.map (fun x => [g x])).flatten = l.map g := by
  induction l with
  | nil => rfl
  | cons a t ih => simp [ih]

theorem deleteResource_trace_nowait (be : Backend) (obj : DeleteObj) (name ns : String)
    (r : Nat → ℚ) :
    (deleteResource be obj name ns false r).1 = [Event.deleteCall obj.gvr ns name] := by
  rcases h : (retryOnError cleanupBackoff retryable
      (deleteClosure fun _ => be.delResp obj.gvr ns name) r).1 with _ | e
  · simp [deleteResource, h]
  · rcases hmd : obj.mustDelete with _ | _ <;> simp [deleteResource, h, hmd]

theorem initiateParallelDeletions_trace (be : Backend) (obj : DeleteObj)
    (ord : List Item) (r : Nat → ℚ) :
    (initiateParallelDeletions be obj ord r).1 =
      ord.map (fun it => Event.deleteCall obj.gvr (resolveNs obj it) it.name) := by
  unfold initiateParallelDeletions
  simp only [List.map_map]
  have h : ∀ it : Item,
      (deleteResource be obj it.name (resolveNs obj it) false r).1 =
        [Event.deleteCall obj.gvr (resolveNs obj it) it.name] :=
    fun it => deleteResource_trace_nowait be obj it.name (resolveNs obj it) r
  calc (ord.map (fun it => (deleteResource be obj it.name (resolveNs obj it) false r).1)).flatten
      = (ord.map (fun it => [Event.deleteCall obj.gvr (resolveNs obj it) it.name])).flatten := by
        congr 1
        exact List.map_congr_left (fun it _ => h it)
    _ = ord.map (fun it => Event.deleteCall obj.gvr (resolveNs obj it) it.name) :=
        flatten_map_singleton ..

theorem verifyParallelDeletions_trace (be : Backend) (obj : DeleteObj) (ord : List Item) :
    (verifyParallelDeletions be obj ord).1 =
      ord.map (fun it => Event.verify obj.gvr (resolveNs obj it) it.name) := by
  unfold verifyParallelDeletions
  simp only [List.map_map, waitForDeletion]
  exact flatten_map_singleton ..

/-! ## C4: not-found on delete is success, independently of mustDelete -/

/-- C4: for every directive with a non-empty name, a delete call whose
backend response is not-found is treated as success by the retried
delete step of `deleteResource` (one attempt, no error, no sleeps), and
the result of `deleteResource` is identical whether `mustDelete` is
true or false. -/
theorem C4_notfound_is_success (be : Backend) (gvr : GVR) (nm nsd : String)
    (md : Bool) (r : Nat → ℚ) (e : KubeError)
    (_hnm : nm ≠ "") (hresp : be.delResp gvr nsd nm = some e) (hnf : e.notFound = true) :
    retryOnError cleanupBackoff retryable (deleteClosure fun _ => be.delResp gvr nsd nm) r
      = (none, 1, [])
    ∧ deleteResource be ⟨gvr, nm, nsd, md⟩ nm nsd false r
      = ([Event.deleteCall gvr nsd nm], none, 1, []) := by
  have hstep : retryOnError cleanupBackoff retryable
      (deleteClosure fun _ => be.delResp gvr nsd nm) r = (none, 1, []) := by
    norm_num [retryOnError, retryLoop, cleanupBackoff, deleteClosure, hresp, hnf]
  exact ⟨hstep, by simp [deleteResource, hstep]⟩

/-- Witness for C4 at a concrete backend. -/
theorem C4_witness :
    retryOnError cleanupBackoff retryable
      (deleteClosure fun _ =>
        (Backend.delResp ⟨[], none, fun _ _ => none, fun _ _ => [], fun _ _ _ => some ⟨true, false, "nf"⟩,
          fun _ _ _ => none, fun _ _ _ => none, fun _ _ _ => none⟩ ⟨"g", "v", "res"⟩ "ns" "x")) (fun _ => 0)
      = (none, 1, [])
    ∧ deleteResource
        ⟨[], none, fun _ _ => none, fun _ _ => [], fun _ _ _ => some ⟨true, false, "nf"⟩,
          fun _ _ _ => none, fun _ _ _ => none, fun _ _ _ => none⟩
        ⟨⟨"g", "v", "res"⟩, "x", "ns", true⟩ "x" "ns" false (fun _ => 0)
      = ([Event.deleteCall ⟨"g", "v", "res"⟩ "ns" "x"], none, 1, []) :=
  C4_notfound_is_success _ _ _ _ _ _ _ (by decide) rfl rfl

/-! ## C6: absent config file is treated as an error by the code -/

/-- C6: when the resource config file is absent, `CleanupResources`
does not return success: `readConfig` yields nil bytes without error,
but the missing nil-bytes check (present in `CleanupFiles`) lets
`json.Unmarshal(nil, ...)` fail, so the run returns the unmarshal
error without attempting any deletion. Malformed JSON also fails,
as the claim states. -/
theorem C6_absent_config_errors :
    (∀ (c : Cleaner) (be : Backend) (parse : String → Except String (List DeleteObj))
        (signalAt : Option ℚ) (s1 s2 : List Item → List Item) (r : Nat → ℚ)
        (notif0 : NotifState),
      CleanupResources c ⟨be, .absent, parse, signalAt, s1, s2, r⟩ notif0
        = ⟨some (.configParse "unexpected end of JSON input"), notif0, [], [], []⟩)
    ∧ ∀ (c : Cleaner) (be : Backend) (signalAt : Option ℚ) (s1 s2 : List Item → List Item)
        (r : Nat → ℚ) (notif0 : NotifState) (s m : String),
      (CleanupResources c ⟨be, .content s, fun _ => .error m, signalAt, s1, s2, r⟩ notif0).err
        = some (.configParse m) := by
  constructor
  · intro c be parse signalAt s1 s2 r notif0
    simp [CleanupResources, readConfig, jsonUnmarshalDeleteObjs]
  · intro c be signalAt s1 s2 r notif0 s m
    simp [CleanupResources, readConfig, jsonUnmarshalDeleteObjs]

/-! ## C3: the self-destruct coordinator race -/

theorem cleanupLoop_waits (c : Cleaner) (env : RunEnv) (p : List DeleteObj) :
    (cleanupLoop c env p).waits = []
    ∨ (cleanupLoop c env p).waits = [selfDestructWait c env.signalAt] := by
  induction p with
  | nil => left; rfl
  | cons obj rest ih =>
    unfold cleanupLoop
    rcases hrest : rest.isEmpty with _ | _
    · simp only [hrest, Bool.false_eq_true, if_false]
      rcases (if obj.name == "" then deleteAllResources c env.be obj env.sched1 env.sched2 env.r
        else ((deleteSingleResource c env.be obj env.r).1,
              (deleteSingleResource c env.be obj env.r).2.1)).2 with _ | e
      · simpa using ih
      · rcases hmd : obj.mustDelete with _ | _
        · simpa [hmd] using ih
        · simp [hmd]
    · simp only [hrest, if_true]
      rcases (setOwnerReferences c env.be obj).2 with e | be1
      · simp
      · rcases (if obj.name == "" then deleteAllResources c env.be obj env.sched1 env.sched2 env.r
          else ((deleteSingleResource c env.be obj env.r).1,
                (deleteSingleResource c env.be obj env.r).2.1)).2 with _ | e
        · right; rfl
        · rcases hmd : obj.mustDelete with _ | _ <;> simp [hmd]

/-- C3: before processing the last directive the coordinator resolves
immediately (no wait) when blocking deletion is configured; otherwise
it resolves on whichever of notification arrival and cleanup-timeout
elapse occurs first. Moreover any resolution recorded by the directive
loop is exactly this race's outcome, and at most one wait occurs per
run. -/
theorem C3_self_destruct_race :
    (∀ (c : Cleaner) (s : Option ℚ), c.blockingDeletion = true →
      selfDestructWait c s = .immediate)
    ∧ (∀ (c : Cleaner) (t : ℚ), c.blockingDeletion = false → t < c.cleanupTimeout →
      selfDestructWait c (some t) = .notified t)
    ∧ (∀ (c : Cleaner) (t : ℚ), c.blockingDeletion = false → c.cleanupTimeout ≤ t →
      selfDestructWait c (some t) = .timedOut)
    ∧ (∀ c : Cleaner, c.blockingDeletion = false → selfDestructWait c none = .timedOut)
    ∧ (∀ (c : Cleaner) (env : RunEnv) (p : List DeleteObj) (w : SelfDestructResolution),
        w ∈ (cleanupLoop c env p).waits → w = selfDestructWait c env.signalAt)
    ∧ (∀ (c : Cleaner) (env : RunEnv) (p : List DeleteObj),
        (cleanupLoop c env p).waits.length ≤ 1) := by
  refine ⟨fun c s h => by simp [selfDestructWait, h],
    fun c t hb ht => by simp [selfDestructWait, hb, ht],
    fun c t hb ht => by simp [selfDestructWait, hb, not_lt.mpr ht],
    fun c hb => by simp [selfDestructWait, hb], ?_, ?_⟩
  · intro c env p w hw
    rcases cleanupLoop_waits c env p with h | h <;> rw [h] at hw
    · exact absurd hw (List.not_mem_nil w)
    · simpa using hw
  · intro c env p
    rcases cleanupLoop_waits c env p with h | h <;> simp [h]

/-- Witness for C3 at concrete configurations. -/
theorem C3_witness :
    selfDestructWait ⟨10000000000, 1, 5, true, "", "", "", "", ""⟩ (some 1000000000)
      = .immediate
    ∧ selfDestructWait ⟨10000000000, 1, 5, false, "", "", "", "", ""⟩ (some 1000000000)
      = .notified 1000000000
    ∧ selfDestructWait ⟨1000000000, 1, 5, false, "", "", "", "", ""⟩ none = .timedOut := by
  refine ⟨C3_self_destruct_race.1 _ _ rfl, ?_, ?_⟩
  · exact C3_self_destruct_race.2.1 _ _ rfl (by norm_num)
  · exact C3_self_destruct_race.2.2.2.1 _ rfl

/-! ## Concrete fixtures used by witnesses and counterexamples -/

/-- A non-retryable, non-not-found backend error. -/
def fatalE : KubeError := ⟨false, false, "boom"⟩

/-- Fixture backend: two namespaces; listing `clusterroles` yields one
item per namespace; every delete call fails with `fatalE`; polling
confirms absence; every Get succeeds; every Update succeeds. -/
def beFix : Backend :=
  ⟨["ns1", "ns2"], none, fun _ _ => none,
   fun g ns =>
     if g = clusterRoleGVR then (if ns = "ns1" then [⟨"a", "ns1"⟩] else [⟨"b", "ns2"⟩]) else [],
   fun _ _ _ => some fatalE,
   fun _ _ _ => none,
   fun _ _ _ => some ⟨"v1", "Pod", "cleanup", "uid-1", []⟩,
   fun _ _ _ => none⟩

/-- Fixture configuration with blocking deletion and namespace-scoped
RBAC names. -/
def cFix : Cleaner := ⟨30000000000, 1, 5, true, "sa", "r", "rb", "", ""⟩

/-- Fixture bulk directive for the cluster-scoped `clusterroles` kind. -/
def objBulkCR : DeleteObj := ⟨clusterRoleGVR, "", "", true⟩

/-! ## C2: all initiations precede any verification -/

/-- Phase-ordering of a bulk trace: at any position where a
verification event occurs, every item of `items` already has an
earlier initiation event, and every initiation event of the trace is
earlier. -/
def phaseOrdered (obj : DeleteObj) (items : List Item) (evs : List Event) : Prop :=
  ∀ j, ∀ hj : j < evs.length, (evs.get ⟨j, hj⟩).isVerify = true →
    (∀ it ∈ items, ∃ i, ∃ hi : i < evs.length, i < j ∧
       evs.get ⟨i, hi⟩ = Event.deleteCall obj.gvr (resolveNs obj it) it.name)
    ∧ ∀ i, ∀ hi : i < evs.length, (evs.get ⟨i, hi⟩).isDeleteCall = true → i < j

theorem phaseOrdered_append (obj : DeleteObj) (items : List Item) (A B : List Event)
    (hA : ∀ ev ∈ A, ev.isVerify = false)
    (hB : ∀ ev ∈ B, ev.isDeleteCall = false)
    (hcover : ∀ it ∈ items, Event.deleteCall obj.gvr (resolveNs obj it) it.name ∈ A) :
    phaseOrdered obj items (A ++ B) := by
  intro j hj hver
  have hjA : A.length ≤ j := by
    by_contra hlt
    push_neg at hlt
    have hget : (A ++ B).get ⟨j, hj⟩ = A.get ⟨j, hlt⟩ := by
      simp [List.get_eq_getElem, List.getElem_append_left hlt]
    rw [hget] at hver
    have := hA _ (A.get_mem j hlt)
    rw [this] at hver
    exact Bool.false_ne_true hver
  refine ⟨?_, ?_⟩
  · intro it hit
    obtain ⟨i, hiA, hgi⟩ := List.mem_iff_getElem.mp (hcover it hit)
    have hi : i < (A ++ B).length := by
      rw [List.length_append]
      omega
    refine ⟨i, hi, lt_of_lt_of_le hiA hjA, ?_⟩
    rw [List.get_eq_getElem, List.getElem_append_left hiA]
    exact hgi
  · intro i hi hdel
    by_contra hge
    push_neg at hge
    have hiA : A.length ≤ i := le_trans hjA hge
    have hiB : i - A.length < B.length := by
      rw [List.length_append] at hi
      omega
    have hget : (A ++ B).get ⟨i, hi⟩ = B.get ⟨i - A.length, hiB⟩ := by
      simp [List.get_eq_getElem, List.getElem_append_right hiA]
    rw [hget] at hdel
    have := hB _ (B.get_mem _ hiB)
    rw [this] at hdel
    exact Bool.false_ne_true hdel

/-- C2: in blocking bulk deletion, for any execution orders of the two
concurrent phases (any permutations of the matched items), the trace is
the scheduled initiations followed (when phase 2 runs) by the scheduled
verifications, and it is phase-ordered: no verification of any instance
begins before deletion has been initiated for every matched instance. -/
theorem C2_initiations_before_verifications (be : Backend) (obj : DeleteObj)
    (items ord1 ord2 : List Item) (r : Nat → ℚ)
    (h1 : ord1.Perm items) (_h2 : ord2.Perm items) :
    (∃ V, (deleteAllResourcesBlocking be obj ord1 ord2 r).1
        = ord1.map (fun it => Event.deleteCall obj.gvr (resolveNs obj it) it.name) ++ V
      ∧ (V = [] ∨ V = ord2.map (fun it => Event.verify obj.gvr (resolveNs obj it) it.name)))
    ∧ phaseOrdered obj items (deleteAllResourcesBlocking be obj ord1 ord2 r).1 := by
  have hA : ∀ ev ∈ ord1.map (fun it => Event.deleteCall obj.gvr (resolveNs obj it) it.name),
      ev.isVerify = false := by
    intro ev hev
    obtain ⟨it, _, rfl⟩ := List.mem_map.mp hev
    rfl
  have hcover : ∀ it ∈ items,
      Event.deleteCall obj.gvr (resolveNs obj it) it.name
        ∈ ord1.map (fun it => Event.deleteCall obj.gvr (resolveNs obj it) it.name) :=
    fun it hit => List.mem_map_of_mem _ (h1.mem_iff.mpr hit)
  rcases hp : (initiateParallelDeletions be obj ord1 r).2 with _ | e
  case some =>
    have hevs : (deleteAllResourcesBlocking be obj ord1 ord2 r).1
        = ord1.map (fun it => Event.deleteCall obj.gvr (resolveNs obj it) it.name) := by
      simp [deleteAllResourcesBlocking, hp, initiateParallelDeletions_trace]
    refine ⟨⟨[], by simp [hevs], Or.inl rfl⟩, ?_⟩
    rw [hevs]
    have h := phaseOrdered_append obj items
      (ord1.map (fun it => Event.deleteCall obj.gvr (resolveNs obj it) it.name)) []
      hA (by intro ev hev; exact absurd hev (List.not_mem_nil ev)) hcover
    rwa [List.append_nil] at h
  case none =>
    have hevs : (deleteAllResourcesBlocking be obj ord1 ord2 r).1
        = ord1.map (fun it => Event.deleteCall obj.gvr (resolveNs obj it) it.name)
          ++ ord2.map (fun it => Event.verify obj.gvr (resolveNs obj it) it.name) := by
      simp [deleteAllResourcesBlocking, hp, initiateParallelDeletions_trace,
        verifyParallelDeletions_trace]
    refine ⟨⟨_, hevs, Or.inr rfl⟩, ?_⟩
    rw [hevs]
    refine phaseOrdered_append obj items _ _ hA ?_ hcover
    intro ev hev
    obtain ⟨it, _, rfl⟩ := List.mem_map.mp hev
    rfl

/-- Witness for C2 at a concrete backend and schedule. -/
theorem C2_witness :
    ∃ V, (deleteAllResourcesBlocking beFix objBulkCR
        [⟨"a", "ns1"⟩, ⟨"b", "ns2"⟩] [⟨"a", "ns1"⟩, ⟨"b", "ns2"⟩] (fun _ => 0)).1
      = ([⟨"a", "ns1"⟩, ⟨"b", "ns2"⟩] : List Item).map
          (fun it => Event.deleteCall objBulkCR.gvr (resolveNs objBulkCR it) it.name) ++ V
      ∧ (V = [] ∨ V = ([⟨"a", "ns1"⟩, ⟨"b", "ns2"⟩] : List Item).map
          (fun it => Event.verify objBulkCR.gvr (resolveNs objBulkCR it) it.name)) :=
  (C2_initiations_before_verifications beFix objBulkCR
    [⟨"a", "ns1"⟩, ⟨"b", "ns2"⟩] [⟨"a", "ns1"⟩, ⟨"b", "ns2"⟩] [⟨"a", "ns1"⟩, ⟨"b", "ns2"⟩]
    (fun _ => 0) (List.Perm.refl _) (List.Perm.refl _)).1

/-! ## C8: a phase-1 mustDelete failure skips the verification phase -/

/-- C8 counterexample: with a backend whose deletes always fail fatally
and a `mustDelete` bulk directive over two matched instances, the
blocking bulk path records the phase-1 error but then returns it
without entering verification for any instance — the trace contains
only the two initiations, no `verify` events, contradicting the claim
that the verification phase runs for every matched instance. -/
theorem C8_counterexample :
    deleteAllResourcesBlocking beFix objBulkCR
        [⟨"a", "ns1"⟩, ⟨"b", "ns2"⟩] [⟨"a", "ns1"⟩, ⟨"b", "ns2"⟩] (fun _ => 0)
      = ([Event.deleteCall clusterRoleGVR "ns1" "a", Event.deleteCall clusterRoleGVR "ns2" "b"],
         some (.itemDelete "a" (.retryFailed fatalE)))
    ∧ ∀ ev ∈ (deleteAllResourcesBlocking beFix objBulkCR
        [⟨"a", "ns1"⟩, ⟨"b", "ns2"⟩] [⟨"a", "ns1"⟩, ⟨"b", "ns2"⟩] (fun _ => 0)).1,
        ev.isVerify = false := by
  constructor
  · decide
  · decide

/-- C8 (amended): phase 1 always runs to completion for every scheduled
instance (a failure does not cancel the other initiations); when a
`mustDelete` initiation error was recorded, that error is returned
after the phase-1 join and the verification phase is skipped entirely;
verification runs for every instance exactly when phase 1 recorded no
error — in particular always for non-`mustDelete` directives. -/
theorem C8_phase1_error_skips_verification (be : Backend) (obj : DeleteObj)
    (ord1 ord2 : List Item) (r : Nat → ℚ) :
    (initiateParallelDeletions be obj ord1 r).1
      = ord1.map (fun it => Event.deleteCall obj.gvr (resolveNs obj it) it.name)
    ∧ (∀ e, (initiateParallelDeletions be obj ord1 r).2 = some e →
        deleteAllResourcesBlocking be obj ord1 ord2 r
          = (ord1.map (fun it => Event.deleteCall obj.gvr (resolveNs obj it) it.name), some e))
    ∧ ((initiateParallelDeletions be obj ord1 r).2 = none →
        (deleteAllResourcesBlocking be obj ord1 ord2 r).1
          = ord1.map (fun it => Event.deleteCall obj.gvr (resolveNs obj it) it.name)
            ++ ord2.map (fun it => Event.verify obj.gvr (resolveNs obj it) it.name))
    ∧ (obj.mustDelete = false → (initiateParallelDeletions be obj ord1 r).2 = none) := by
  refine ⟨initiateParallelDeletions_trace .., ?_, ?_, ?_⟩
  · intro e he
    simp [deleteAllResourcesBlocking, he, initiateParallelDeletions_trace]
  · intro he
    simp [deleteAllResourcesBlocking, he, initiateParallelDeletions_trace,
      verifyParallelDeletions_trace]
  · intro hmd
    simp [initiateParallelDeletions, hmd]

/-- Witness for the amended C8 at a concrete failing phase 1. -/
theorem C8_witness :
    deleteAllResourcesBlocking beFix objBulkCR [⟨"a", "ns1"⟩] [⟨"a", "ns1"⟩] (fun _ => 0)
      = (([⟨"a", "ns1"⟩] : List Item).map
          (fun it => Event.deleteCall objBulkCR.gvr (resolveNs objBulkCR it) it.name),
         some (.itemDelete "a" (.retryFailed fatalE))) :=
  (C8_phase1_error_skips_verification beFix objBulkCR [⟨"a", "ns1"⟩] [⟨"a", "ns1"⟩]
    (fun _ => 0)).2.1 _ (by decide)

/-! ## C7 and C9: the bulk listing strategy -/

theorem listLoop_ok (be : Backend) (obj : DeleteObj) (l : List String)
    (h : ∀ ns ∈ l, (obj.ns == "" || obj.ns == ns) = true → be.listErr obj.gvr ns = none) :
    listLoop be obj l
      = ((l.filter (fun ns => obj.ns == "" || obj.ns == ns)).map (Event.list obj.gvr),
         .ok ((l.filter (fun ns => obj.ns == "" || obj.ns == ns)).map
            (be.listItems obj.gvr)).flatten) := by
  induction l with
  | nil => rfl
  | cons ns rest ih =>
    have hrest : ∀ n ∈ rest, (obj.ns == "" || obj.ns == n) = true → be.listErr obj.gvr n = none :=
      fun n hn => h n (List.mem_cons_of_mem ns hn)
    rcases hcond : (obj.ns == "" || obj.ns == ns) with _ | _
    · have hskip : (obj.ns != "" && obj.ns != ns) = true := by
        rcases h1 : obj.ns == "" with _ | _ <;> rcases h2 : obj.ns == ns with _ | _ <;>
          simp_all [bne]
      rw [listLoop, if_pos hskip, ih hrest]
      simp [List.filter_cons, hcond]
    · have hskip : (obj.ns != "" && obj.ns != ns) = false := by
        rcases h1 : obj.ns == "" with _ | _ <;> rcases h2 : obj.ns == ns with _ | _ <;>
          simp_all [bne]
      rw [listLoop, if_neg (by simp [hskip]), h ns (List.mem_cons_self ns rest) hcond]
      rw [ih hrest]
      simp [List.filter_cons, hcond]

/-- C7 counterexample: for a bulk directive over the cluster-scoped
`clusterroles` kind (no name, no namespace filter), the deleter still
enumerates every namespace and performs one list call per namespace —
it never performs a single global listing — contradicting the claim
that cluster-scoped kinds are handled by one global listing without
partition enumeration. -/
theorem C7_counterexample :
    (deleteAllResources cFix beFix objBulkCR id id (fun _ => 0)).1
      = [Event.listNamespaces, Event.list clusterRoleGVR "ns1", Event.list clusterRoleGVR "ns2",
         Event.deleteCall clusterRoleGVR "ns1" "a", Event.deleteCall clusterRoleGVR "ns2" "b"]
    ∧ Event.listNamespaces ∈ (deleteAllResources cFix beFix objBulkCR id id (fun _ => 0)).1
    ∧ Event.list clusterRoleGVR "" ∉
        (deleteAllResources cFix beFix objBulkCR id id (fun _ => 0)).1 := by
  refine ⟨by decide, by decide, by decide⟩

/-- C7 (amended): for every bulk directive (empty name), regardless of
whether the resource kind is namespace- or cluster-scoped, the deleter
first enumerates every namespace and then issues one list call per
namespace that passes the filter; when the directive's namespace is
non-empty the filter keeps exactly that namespace (skipping is the
filtering mechanism), and the aggregated item set is the concatenation
of the per-namespace listings of the kept namespaces. -/
theorem C7_per_namespace_listing (c : Cleaner) (be : Backend) (obj : DeleteObj)
    (sched1 sched2 : List Item → List Item) (r : Nat → ℚ)
    (_hname : obj.name = "") (hns : be.nsListErr = none)
    (herr : ∀ ns ∈ be.namespaces, (obj.ns == "" || obj.ns == ns) = true →
      be.listErr obj.gvr ns = none) :
    (∃ tail, (deleteAllResources c be obj sched1 sched2 r).1
        = Event.listNamespaces ::
          ((be.namespaces.filter (fun ns => obj.ns == "" || obj.ns == ns)).map
            (Event.list obj.gvr) ++ tail))
    ∧ (listLoop be obj be.namespaces).2
        = .ok ((be.namespaces.filter (fun ns => obj.ns == "" || obj.ns == ns)).map
            (be.listItems obj.gvr)).flatten
    ∧ (obj.ns ≠ "" →
        (be.namespaces.filter (fun ns => obj.ns == "" || obj.ns == ns))
          = be.namespaces.filter (fun ns => obj.ns == ns)) := by
  have hloop := listLoop_ok be obj be.namespaces herr
  refine ⟨?_, by rw [hloop], ?_⟩
  · unfold deleteAllResources
    simp only [hns, hloop]
    by_cases hempty : (((be.namespaces.filter (fun ns => obj.ns == "" || obj.ns == ns)).map
        (be.listItems obj.gvr)).flatten).isEmpty = true
    · rw [if_pos hempty]
      exact ⟨[], by simp⟩
    · rw [if_neg hempty]
      by_cases hbd : c.blockingDeletion = true
      · rw [if_pos hbd]
        exact ⟨_, rfl⟩
      · rw [if_neg hbd]
        exact ⟨_, rfl⟩
  · intro hne
    apply List.filter_congr
    intro ns _
    have : (obj.ns == "") = false := by
      rcases hck : obj.ns == "" with _ | _
      · rfl
      · exact absurd (by simpa using hck) hne
    simp [this]

/-- Witness for the amended C7: a namespace-filtered bulk directive
lists only the matching namespace. -/
theorem C7_witness :
    (∃ tail, (deleteAllResources cFix beFix ⟨clusterRoleGVR, "", "ns2", true⟩ id id
        (fun _ => 0)).1
      = Event.listNamespaces ::
        (((["ns1", "ns2"] : List String).filter
            (fun ns => ("ns2" : String) == "" || ("ns2" : String) == ns)).map
          (Event.list clusterRoleGVR) ++ tail)) := by
  have h := C7_per_namespace_listing cFix beFix ⟨clusterRoleGVR, "", "ns2", true⟩ id id
    (fun _ => 0) rfl rfl (by decide)
  exact h.1

/-- C9: for a bulk directive with both name and namespace empty, the
listing aggregates the items of every namespace into one deletion set;
when zero items are found across all namespaces the operation returns
success after the listing phase, and its trace contains no delete
call. -/
theorem C9_aggregate_all_namespaces (c : Cleaner) (be : Backend) (obj : DeleteObj)
    (sched1 sched2 : List Item → List Item) (r : Nat → ℚ)
    (_hname : obj.name = "") (hobjns : obj.ns = "") (hns : be.nsListErr = none)
    (herr : ∀ ns ∈ be.namespaces, be.listErr obj.gvr ns = none) :
    (listLoop be obj be.namespaces).2
      = .ok ((be.namespaces.map (be.listItems obj.gvr)).flatten)
    ∧ ((be.namespaces.map (be.listItems obj.gvr)).flatten = [] →
        deleteAllResources c be obj sched1 sched2 r
          = (Event.listNamespaces :: be.namespaces.map (Event.list obj.gvr), none))
    ∧ ((be.namespaces.map (be.listItems obj.gvr)).flatten = [] →
        ∀ ev ∈ (deleteAllResources c be obj sched1 sched2 r).1, ev.isDeleteCall = false) := by
  have hfilter : be.namespaces.filter (fun ns => obj.ns == "" || obj.ns == ns)
      = be.namespaces := by
    apply List.filter_eq_self.mpr
    intro ns _
    simp [hobjns]
  have hloop := listLoop_ok be obj be.namespaces (by intro ns hmem _; exact herr ns hmem)
  rw [hfilter] at hloop
  have hmain : (be.namespaces.map (be.listItems obj.gvr)).flatten = [] →
      deleteAllResources c be obj sched1 sched2 r
        = (Event.listNamespaces :: be.namespaces.map (Event.list obj.gvr), none) := by
    intro hzero
    unfold deleteAllResources
    rw [hns, hloop]
    simp [hzero]
  refine ⟨by rw [hloop], hmain, ?_⟩
  intro hzero ev hev
  rw [hmain hzero] at hev
  rcases List.mem_cons.mp hev with h | h
  · rw [h]; rfl
  · obtain ⟨ns, _, rfl⟩ := List.mem_map.mp h
    rfl

/-- Witness for C9: an all-namespaces bulk directive over a kind with
no instances anywhere is a successful no-op. -/
theorem C9_witness :
    deleteAllResources cFix beFix ⟨⟨"t", "v1", "pods"⟩, "", "", true⟩ id id (fun _ => 0)
      = (Event.listNamespaces ::
          (["ns1", "ns2"] : List String).map (Event.list (⟨"t", "v1", "pods"⟩ : GVR)), none) := by
  have h := C9_aggregate_all_namespaces cFix beFix ⟨⟨"t", "v1", "pods"⟩, "", "", true⟩ id id
    (fun _ => 0) rfl rfl rfl (by decide)
  exact h.2.1 (by decide)

/-! ## C1: lifecycle of the notification channel reference -/

/-- Fixture run whose single `MustDelete` directive fails (every delete
call of `beFix` fails fatally). -/
def envC1 : RunEnv :=
  ⟨beFix, .content "cfg", fun _ => .ok [⟨⟨"t", "v1", "pods"⟩, "x", "nsy", true⟩],
   none, id, id, fun _ => 0⟩

/-- C1 counterexample: a run whose `MustDelete` directive fails returns
an error while the notification channel reference is still the open
channel (not nil), and a `FinalizeCleanup` call at that point is not
rejected with `ErrIllegalCleanupNotification` — it attempts the channel
send. This contradicts the claim that the reference is nil after any
invocation returns, error or not. -/
theorem C1_counterexample :
    (CleanupResources cFix envC1 initialNotifState).err.isSome = true
    ∧ (CleanupResources cFix envC1 initialNotifState).notif = .openChan
    ∧ FinalizeCleanup (CleanupResources cFix envC1 initialNotifState).notif = .delivered := by
  exact ⟨by decide, by decide, by decide⟩

/-- C1 (amended): the channel reference is nil before the first
invocation (so `FinalizeCleanup` is rejected there), is left unchanged
by invocations that fail before creating the channel (config read or
parse errors), and is cleared exactly by invocations that complete the
directive loop (error-free runs): after those, `FinalizeCleanup` is
rejected again. An invocation that returns an error from inside the
directive loop, however, leaves the open channel in place, and a
`FinalizeCleanup` call at that point is not rejected. -/
theorem C1_notif_lifecycle (c : Cleaner) (env : RunEnv) (notif0 : NotifState) :
    FinalizeCleanup initialNotifState = .rejected
    ∧ (∀ m, readConfig env.fileRead = .error m →
        (CleanupResources c env notif0).notif = notif0)
    ∧ (∀ bytes m, readConfig env.fileRead = .ok bytes →
        jsonUnmarshalDeleteObjs env.parse bytes = .error m →
        (CleanupResources c env notif0).notif = notif0)
    ∧ ((CleanupResources c env notif0).err = none →
        (CleanupResources c env notif0).notif = .nilRef
        ∧ FinalizeCleanup (CleanupResources c env notif0).notif = .rejected)
    ∧ (∀ bytes objs e, readConfig env.fileRead = .ok bytes →
        jsonUnmarshalDeleteObjs env.parse bytes = .ok objs →
        (CleanupResources c env notif0).err = some e →
        (CleanupResources c env notif0).notif = .openChan
        ∧ FinalizeCleanup (CleanupResources c env notif0).notif = .delivered) := by
  refine ⟨rfl, ?_, ?_, ?_, ?_⟩
  · intro m hm
    simp [CleanupResources, hm]
  · intro bytes m hb hm
    simp [CleanupResources, hb, hm]
  · intro hnone
    rcases hrc : readConfig env.fileRead with m | bytes
    · exfalso
      have h : (CleanupResources c env notif0).err = some (.configRead m) := by
        simp [CleanupResources, hrc]
      rw [h] at hnone
      exact Option.some_ne_none _ hnone
    · rcases hj : jsonUnmarshalDeleteObjs env.parse bytes with m | objs
      · exfalso
        have h : (CleanupResources c env notif0).err = some (.configParse m) := by
          simp [CleanupResources, hrc, hj]
        rw [h] at hnone
        exact Option.some_ne_none _ hnone
      · rcases hl : (cleanupLoop c env objs).err with _ | e
        · have h : (CleanupResources c env notif0).notif = .nilRef := by
            simp [CleanupResources, hrc, hj, hl]
          exact ⟨h, by rw [h]; rfl⟩
        · exfalso
          have h : (CleanupResources c env notif0).err = some e := by
            simp [CleanupResources, hrc, hj, hl]
          rw [h] at hnone
          exact Option.some_ne_none _ hnone
  · intro bytes objs e hb hj he
    rcases hl : (cleanupLoop c env objs).err with _ | e2
    · exfalso
      have h : (CleanupResources c env notif0).err = none := by
        simp [CleanupResources, hb, hj, hl]
      rw [h] at he
      exact Option.noConfusion he
    · have h : (CleanupResources c env notif0).notif = .openChan := by
        simp [CleanupResources, hb, hj, hl]
      exact ⟨h, by rw [h]; rfl⟩

/-- Fixture run with an empty, successfully parsed plan. -/
def envOK : RunEnv :=
  ⟨beFix, .content "[]", fun _ => .ok [], none, id, id, fun _ => 0⟩

/-- Witness for the amended C1: before any run, and after an error-free
run, `FinalizeCleanup` is rejected. -/
theorem C1_witness :
    FinalizeCleanup initialNotifState = .rejected
    ∧ (CleanupResources cFix envOK initialNotifState).notif = .nilRef
    ∧ FinalizeCleanup (CleanupResources cFix envOK initialNotifState).notif = .rejected := by
  have h := C1_notif_lifecycle cFix envOK initialNotifState
  have hs := h.2.2.2.1 (by decide)
  exact ⟨h.1, hs.1, hs.2⟩

/-! ## C5: the retry policy -/

/-- C5: a delete whose backend call always fails with a transient error
is attempted exactly 5 times, with exponentially doubling sleeps of
nominally 1s, 2s, 4s, 8s, each carrying a 10% jitter (every sleep lies
within 10% of its nominal value, and the policy's 30s cap bounds every
sleep); sleeps are non-decreasing; the last transient error is then
surfaced, wrapped as a deletion-failed-after-retries error for a
`MustDelete` directive. A failure not classified as transient is never
retried: it is surfaced immediately after the attempt that produced it. -/
theorem C5_retry_policy :
    (∀ (be : Backend) (gvr : GVR) (nsd nm : String) (r : Nat → ℚ) (e : KubeError),
      be.delResp gvr nsd nm = some e → e.notFound = false → retryable e = true →
      (∀ i, 0 ≤ r i ∧ r i < 1) →
      retryOnError cleanupBackoff retryable (deleteClosure fun _ => be.delResp gvr nsd nm) r
        = (some e, 5,
           [jitterDur 1000000000 (1/10) (r 0), jitterDur 2000000000 (1/10) (r 1),
            jitterDur 4000000000 (1/10) (r 2), jitterDur 8000000000 (1/10) (r 3)])
      ∧ deleteResource be ⟨gvr, nm, nsd, true⟩ nm nsd false r
        = ([Event.deleteCall gvr nsd nm], some (.retryFailed e), 5,
           [jitterDur 1000000000 (1/10) (r 0), jitterDur 2000000000 (1/10) (r 1),
            jitterDur 4000000000 (1/10) (r 2), jitterDur 8000000000 (1/10) (r 3)])
      ∧ List.Chain' (· ≤ ·)
           [jitterDur 1000000000 (1/10) (r 0), jitterDur 2000000000 (1/10) (r 1),
            jitterDur 4000000000 (1/10) (r 2), jitterDur 8000000000 (1/10) (r 3)]
      ∧ (∀ w ∈ [jitterDur 1000000000 (1/10) (r 0), jitterDur 2000000000 (1/10) (r 1),
            jitterDur 4000000000 (1/10) (r 2), jitterDur 8000000000 (1/10) (r 3)],
           w ≤ 30000000000))
    ∧ (∀ (d ri : ℚ), 0 < d → 0 ≤ ri → ri < 1 →
        d ≤ jitterDur d (1/10) ri ∧ jitterDur d (1/10) ri ≤ d + d / 10)
    ∧ (∀ (fn : Nat → Option KubeError) (r : Nat → ℚ) (k : Nat) (e : KubeError),
        k < 5 → (∀ i, i < k → ∃ t, fn i = some t ∧ retryable t = true) →
        fn k = some e → retryable e = false →
        (retryOnError cleanupBackoff retryable fn r).1 = some e
        ∧ (retryOnError cleanupBackoff retryable fn r).2.1 = k + 1) := by
  have hband : ∀ (d ri : ℚ), 0 < d → 0 ≤ ri → ri < 1 →
      d ≤ jitterDur d (1/10) ri ∧ jitterDur d (1/10) ri ≤ d + d / 10 := by
    intro d ri hd h0 h1
    unfold jitterDur
    constructor
    · nlinarith
    · nlinarith
  refine ⟨?_, hband, ?_⟩
  · intro be gvr nsd nm r e hresp hnf hre hr
    have hmain : retryOnError cleanupBackoff retryable
        (deleteClosure fun _ => be.delResp gvr nsd nm) r
        = (some e, 5,
           [jitterDur 1000000000 (1/10) (r 0), jitterDur 2000000000 (1/10) (r 1),
            jitterDur 4000000000 (1/10) (r 2), jitterDur 8000000000 (1/10) (r 3)]) := by
      norm_num [retryOnError, retryLoop, cleanupBackoff, deleteClosure, hresp, hnf, hre]
    have hb0 := hband 1000000000 (r 0) (by norm_num) (hr 0).1 (hr 0).2
    have hb1 := hband 2000000000 (r 1) (by norm_num) (hr 1).1 (hr 1).2
    have hb2 := hband 4000000000 (r 2) (by norm_num) (hr 2).1 (hr 2).2
    have hb3 := hband 8000000000 (r 3) (by norm_num) (hr 3).1 (hr 3).2
    refine ⟨hmain, by simp [deleteResource, hmain], ?_, ?_⟩
    · refine List.chain'_cons.mpr ⟨?_, List.chain'_cons.mpr ⟨?_, List.chain'_cons.mpr
        ⟨?_, List.chain'_singleton _⟩⟩⟩
      · linarith [hb0.2, hb1.1]
      · linarith [hb1.2, hb2.1]
      · linarith [hb2.2, hb3.1]
    · intro w hw
      rcases List.mem_cons.mp hw with h | hw
      · rw [h]; linarith [hb0.2]
      rcases List.mem_cons.mp hw with h | hw
      · rw [h]; linarith [hb1.2]
      rcases List.mem_cons.mp hw with h | hw
      · rw [h]; linarith [hb2.2]
      rcases List.mem_cons.mp hw with h | hw
      · rw [h]; linarith [hb3.2]
      · exact absurd hw (List.not_mem_nil w)
  · intro fn r k e hk htr hfk hre
    interval_cases k
    · constructor <;>
        norm_num [retryOnError, retryLoop, cleanupBackoff, hfk, hre]
    · obtain ⟨t0, ht0, hrt0⟩ := htr 0 (by norm_num)
      constructor <;>
        norm_num [retryOnError, retryLoop, cleanupBackoff, ht0, hrt0, hfk, hre]
    · obtain ⟨t0, ht0, hrt0⟩ := htr 0 (by norm_num)
      obtain ⟨t1, ht1, hrt1⟩ := htr 1 (by norm_num)
      constructor <;>
        norm_num [retryOnError, retryLoop, cleanupBackoff, ht0, hrt0, ht1, hrt1, hfk, hre]
    · obtain ⟨t0, ht0, hrt0⟩ := htr 0 (by norm_num)
      obtain ⟨t1, ht1, hrt1⟩ := htr 1 (by norm_num)
      obtain ⟨t2, ht2, hrt2⟩ := htr 2 (by norm_num)
      constructor <;>
        norm_num [retryOnError, retryLoop, cleanupBackoff, ht0, hrt0, ht1, hrt1, ht2, hrt2,
          hfk, hre]
    · obtain ⟨t0, ht0, hrt0⟩ := htr 0 (by norm_num)
      obtain ⟨t1, ht1, hrt1⟩ := htr 1 (by norm_num)
      obtain ⟨t2, ht2, hrt2⟩ := htr 2 (by norm_num)
      obtain ⟨t3, ht3, hrt3⟩ := htr 3 (by norm_num)
      constructor <;>
        norm_num [retryOnError, retryLoop, cleanupBackoff, ht0, hrt0, ht1, hrt1, ht2, hrt2,
          ht3, hrt3, hfk, hre]

/-- A transient (network-timeout) backend error. -/
def transientE : KubeError := ⟨false, true, "i/o timeout"⟩

/-- Fixture backend whose delete calls always fail transiently. -/
def beTransient : Backend :=
  ⟨["ns1"], none, fun _ _ => none, fun _ _ => [], fun _ _ _ => some transientE,
   fun _ _ _ => none, fun _ _ _ => none, fun _ _ _ => none⟩

/-- Witness for C5 at a concrete always-transient backend and at a
concrete non-transient first attempt. -/
theorem C5_witness :
    retryOnError cleanupBackoff retryable
        (deleteClosure fun _ => beTransient.delResp ⟨"t", "v1", "pods"⟩ "ns1" "x") (fun _ => 0)
      = (some transientE, 5,
         [jitterDur 1000000000 (1/10) 0, jitterDur 2000000000 (1/10) 0,
          jitterDur 4000000000 (1/10) 0, jitterDur 8000000000 (1/10) 0])
    ∧ (retryOnError cleanupBackoff retryable (fun _ => some fatalE) (fun _ => 0)).1 = some fatalE
    ∧ (retryOnError cleanupBackoff retryable (fun _ => some fatalE) (fun _ => 0)).2.1 = 0 + 1 := by
  have h1 := (C5_retry_policy.1 beTransient ⟨"t", "v1", "pods"⟩ "ns1" "x" (fun _ => 0)
    transientE rfl rfl (by decide) (fun i => ⟨le_refl 0, by norm_num⟩)).1
  have h2 := C5_retry_policy.2.2 (fun _ => some fatalE) (fun _ => 0) 0 fatalE
    (by norm_num) (fun i hi => absurd hi (by omega)) rfl (by decide)
  exact ⟨h1, h2.1, h2.2⟩

/-! ## C10: ownership chaining -/

theorem cleanupLoop_chains (c : Cleaner) (env : RunEnv) (p : List DeleteObj) :
    (cleanupLoop c env p).chains = []
    ∨ ∃ objL, p.getLast? = some objL
        ∧ (cleanupLoop c env p).chains = [(setOwnerReferences c env.be objL).1] := by
  induction p with
  | nil => left; rfl
  | cons obj rest ih =>
    rcases rest with _ | ⟨r0, rest'⟩
    · right
      refine ⟨obj, rfl, ?_⟩
      rw [cleanupLoop]
      simp only [List.isEmpty_nil, if_true]
      rcases h1 : (setOwnerReferences c env.be obj).2 with e | be1
      · rfl
      · rcases h2 : (if obj.name == "" then
            deleteAllResources c env.be obj env.sched1 env.sched2 env.r
          else ((deleteSingleResource c env.be obj env.r).1,
                (deleteSingleResource c env.be obj env.r).2.1)).2 with _ | e
        · rfl
        · rcases hmd : obj.mustDelete with _ | _ <;> simp [hmd]
    · rw [cleanupLoop]
      simp only [List.isEmpty_cons, Bool.false_eq_true, if_false]
      rcases h2 : (if obj.name == "" then
          deleteAllResources c env.be obj env.sched1 env.sched2 env.r
        else ((deleteSingleResource c env.be obj env.r).1,
              (deleteSingleResource c env.be obj env.r).2.1)).2 with _ | e
      · rcases ih with h | ⟨objL, hlast, hch⟩
        · left; simpa using h
        · right
          exact ⟨objL, by rw [List.getLast?_cons_cons]; exact hlast, by simpa using hch⟩
      · rcases hmd : obj.mustDelete with _ | _
        · rcases ih with h | ⟨objL, hlast, hch⟩
          · left; simp [hmd]
            simpa using h
          · right
            refine ⟨objL, by rw [List.getLast?_cons_cons]; exact hlast, ?_⟩
            simp [hmd]
            simpa using hch
        · left; simp [hmd]

/-- C10: ownership chaining fetches the top-level resource, then — in
order — appends to the owner references of the service account and of
the cluster role/cluster role binding pair (when cluster-scoped names
are configured) or of the role/role binding pair (otherwise) exactly
one new entry built from the fetched resource's API version, kind,
name, and UID; any fetch or update failure fails the whole run; and the
step runs at most once per run, only for the plan's last directive. -/
theorem C10_owner_chaining (c : Cleaner) (be : Backend) (obj : DeleteObj) :
    (∀ owner sa cr crb : KObj,
      UseClusterRole c = true →
      be.lookup obj.gvr obj.ns obj.name = some owner →
      be.lookup serviceAccountGVR obj.ns c.saName = some sa →
      be.lookup clusterRoleGVR "" c.clusterRoleName = some cr →
      be.lookup clusterRoleBindingGVR "" c.clusterRoleBindingName = some crb →
      be.updateErr serviceAccountGVR obj.ns c.saName = none →
      be.updateErr clusterRoleGVR "" c.clusterRoleName = none →
      be.updateErr clusterRoleBindingGVR "" c.clusterRoleBindingName = none →
      (setOwnerReferences c be obj).1
        = [ChainCall.get obj.gvr obj.ns obj.name,
           ChainCall.get serviceAccountGVR obj.ns c.saName,
           ChainCall.update serviceAccountGVR obj.ns c.saName,
           ChainCall.get clusterRoleGVR "" c.clusterRoleName,
           ChainCall.update clusterRoleGVR "" c.clusterRoleName,
           ChainCall.get clusterRoleBindingGVR "" c.clusterRoleBindingName,
           ChainCall.update clusterRoleBindingGVR "" c.clusterRoleBindingName]
      ∧ ∃ be2, (setOwnerReferences c be obj).2 = .ok be2
          ∧ be2.lookup serviceAccountGVR obj.ns c.saName
              = some ⟨sa.apiVersion, sa.kind, sa.name, sa.uid, sa.ownerReferences
                  ++ [⟨owner.apiVersion, owner.kind, owner.name, owner.uid⟩]⟩
          ∧ be2.lookup clusterRoleGVR "" c.clusterRoleName
              = some ⟨cr.apiVersion, cr.kind, cr.name, cr.uid, cr.ownerReferences
                  ++ [⟨owner.apiVersion, owner.kind, owner.name, owner.uid⟩]⟩
          ∧ be2.lookup clusterRoleBindingGVR "" c.clusterRoleBindingName
              = some ⟨crb.apiVersion, crb.kind, crb.name, crb.uid, crb.ownerReferences
                  ++ [⟨owner.apiVersion, owner.kind, owner.name, owner.uid⟩]⟩)
    ∧ (∀ owner sa role rb : KObj,
      UseClusterRole c = false →
      be.lookup obj.gvr obj.ns obj.name = some owner →
      be.lookup serviceAccountGVR obj.ns c.saName = some sa →
      be.lookup roleGVR obj.ns c.roleName = some role →
      be.lookup roleBindingGVR obj.ns c.roleBindingName = some rb →
      be.updateErr serviceAccountGVR obj.ns c.saName = none →
      be.updateErr roleGVR obj.ns c.roleName = none →
      be.updateErr roleBindingGVR obj.ns c.roleBindingName = none →
      (setOwnerReferences c be obj).1
        = [ChainCall.get obj.gvr obj.ns obj.name,
           ChainCall.get serviceAccountGVR obj.ns c.saName,
           ChainCall.update serviceAccountGVR obj.ns c.saName,
           ChainCall.get roleGVR obj.ns c.roleName,
           ChainCall.update roleGVR obj.ns c.roleName,
           ChainCall.get roleBindingGVR obj.ns c.roleBindingName,
           ChainCall.update roleBindingGVR obj.ns c.roleBindingName]
      ∧ ∃ be2, (setOwnerReferences c be obj).2 = .ok be2
          ∧ be2.lookup serviceAccountGVR obj.ns c.saName
              = some ⟨sa.apiVersion, sa.kind, sa.name, sa.uid, sa.ownerReferences
                  ++ [⟨owner.apiVersion, owner.kind, owner.name, owner.uid⟩]⟩
          ∧ be2.lookup roleGVR obj.ns c.roleName
              = some ⟨role.apiVersion, role.kind, role.name, role.uid, role.ownerReferences
                  ++ [⟨owner.apiVersion, owner.kind, owner.name, owner.uid⟩]⟩
          ∧ be2.lookup roleBindingGVR obj.ns c.roleBindingName
              = some ⟨rb.apiVersion, rb.kind, rb.name, rb.uid, rb.ownerReferences
                  ++ [⟨owner.apiVersion, owner.kind, owner.name, owner.uid⟩]⟩)
    ∧ (∀ (env : RunEnv) (e : CleanErr), env.be = be →
        (setOwnerReferences c be obj).2 = .error e →
        (cleanupLoop c env [obj]).err = some e)
    ∧ (∀ (env : RunEnv) (p : List DeleteObj) (tr : List ChainCall),
        tr ∈ (cleanupLoop c env p).chains →
        ∃ objL, p.getLast? = some objL ∧ tr = (setOwnerReferences c env.be objL).1)
    ∧ (∀ (env : RunEnv) (p : List DeleteObj), (cleanupLoop c env p).chains.length ≤ 1) := by
  refine ⟨?_, ?_, ?_, ?_, ?_⟩
  · intro owner sa cr crb hUC hOwner hSA hCR hCRB hu1 hu2 hu3
    have e1 : clusterRoleGVR ≠ serviceAccountGVR := by decide
    have e2 : clusterRoleBindingGVR ≠ serviceAccountGVR := by decide
    have e3 : clusterRoleBindingGVR ≠ clusterRoleGVR := by decide
    have e4 : serviceAccountGVR ≠ clusterRoleBindingGVR := by decide
    have e5 : serviceAccountGVR ≠ clusterRoleGVR := by decide
    have e6 : clusterRoleGVR ≠ clusterRoleBindingGVR := by decide
    constructor
    · simp [setOwnerReferences, setOwnerReferenceForResource, updateStore, hOwner, hSA,
        hCR, hCRB, hu1, hu2, hu3, hUC, e1, e2, e3]
    · have hcomp : (setOwnerReferences c be obj).2
          = .ok (updateStore (updateStore (updateStore be serviceAccountGVR obj.ns c.saName
              ⟨sa.apiVersion, sa.kind, sa.name, sa.uid, sa.ownerReferences
                ++ [⟨owner.apiVersion, owner.kind, owner.name, owner.uid⟩]⟩)
              clusterRoleGVR "" c.clusterRoleName
              ⟨cr.apiVersion, cr.kind, cr.name, cr.uid, cr.ownerReferences
                ++ [⟨owner.apiVersion, owner.kind, owner.name, owner.uid⟩]⟩)
              clusterRoleBindingGVR "" c.clusterRoleBindingName
              ⟨crb.apiVersion, crb.kind, crb.name, crb.uid, crb.ownerReferences
                ++ [⟨owner.apiVersion, owner.kind, owner.name, owner.uid⟩]⟩) := by
        simp [setOwnerReferences, setOwnerReferenceForResource, updateStore, hOwner, hSA,
          hCR, hCRB, hu1, hu2, hu3, hUC, e1, e2, e3]
      refine ⟨_, hcomp, ?_, ?_, ?_⟩
      · simp [updateStore, e4, e5]
      · simp [updateStore, e6]
      · simp [updateStore]
  · intro owner sa role rb hUC hOwner hSA hR hRB hu1 hu2 hu3
    have f1 : roleGVR ≠ serviceAccountGVR := by decide
    have f2 : roleBindingGVR ≠ serviceAccountGVR := by decide
    have f3 : roleBindingGVR ≠ roleGVR := by decide
    have f4 : serviceAccountGVR ≠ roleBindingGVR := by decide
    have f5 : serviceAccountGVR ≠ roleGVR := by decide
    have f6 : roleGVR ≠ roleBindingGVR := by decide
    constructor
    · simp [setOwnerReferences, setOwnerReferenceForResource, updateStore, hOwner, hSA,
        hR, hRB, hu1, hu2, hu3, hUC, f1, f2, f3]
    · have hcomp : (setOwnerReferences c be obj).2
          = .ok (updateStore (updateStore (updateStore be serviceAccountGVR obj.ns c.saName
              ⟨sa.apiVersion, sa.kind, sa.name, sa.uid, sa.ownerReferences
                ++ [⟨owner.apiVersion, owner.kind, owner.name, owner.uid⟩]⟩)
              roleGVR obj.ns c.roleName
              ⟨role.apiVersion, role.kind, role.name, role.uid, role.ownerReferences
                ++ [⟨owner.apiVersion, owner.kind, owner.name, owner.uid⟩]⟩)
              roleBindingGVR obj.ns c.roleBindingName
              ⟨rb.apiVersion, rb.kind, rb.name, rb.uid, rb.ownerReferences
                ++ [⟨owner.apiVersion, owner.kind, owner.name, owner.uid⟩]⟩) := by
        simp [setOwnerReferences, setOwnerReferenceForResource, updateStore, hOwner, hSA,
          hR, hRB, hu1, hu2, hu3, hUC, f1, f2, f3]
      refine ⟨_, hcomp, ?_, ?_, ?_⟩
      · simp [updateStore, f4, f5]
      · simp [updateStore, f6]
      · simp [updateStore]
  · intro env e henv herr
    rw [cleanupLoop]
    simp only [List.isEmpty_nil, if_true]
    rw [henv, herr]
  · intro env p tr htr
    rcases cleanupLoop_chains c env p with h | ⟨objL, hlast, hch⟩
    · rw [h] at htr
      exact absurd htr (List.not_mem_nil tr)
    · rw [hch] at htr
      exact ⟨objL, hlast, by simpa using htr⟩
  · intro env p
    rcases cleanupLoop_chains c env p with h | ⟨objL, _, hch⟩
    · simp [h]
    · simp [hch]

/-- Fixture configuration with cluster-scoped RBAC names configured. -/
def cCluster : Cleaner := ⟨30000000000, 1, 5, true, "sa", "r", "rb", "cr", "crb"⟩

/-- Witness for C10 at a concrete store: chaining appends exactly one
owner reference, built from the fetched top-level resource, to each of
the service account, cluster role, and cluster role binding, in that
order. -/
theorem C10_witness :
    (setOwnerReferences cCluster beFix ⟨⟨"t", "v1", "pods"⟩, "x", "nsy", true⟩).1
      = [ChainCall.get ⟨"t", "v1", "pods"⟩ "nsy" "x",
         ChainCall.get serviceAccountGVR "nsy" "sa",
         ChainCall.update serviceAccountGVR "nsy" "sa",
         ChainCall.get clusterRoleGVR "" "cr",
         ChainCall.update clusterRoleGVR "" "cr",
         ChainCall.get clusterRoleBindingGVR "" "crb",
         ChainCall.update clusterRoleBindingGVR "" "crb"]
    ∧ ∃ be2,
        (setOwnerReferences cCluster beFix ⟨⟨"t", "v1", "pods"⟩, "x", "nsy", true⟩).2 = .ok be2
        ∧ be2.lookup serviceAccountGVR "nsy" "sa"
            = some ⟨"v1", "Pod", "cleanup", "uid-1", [⟨"v1", "Pod", "cleanup", "uid-1"⟩]⟩
        ∧ be2.lookup clusterRoleGVR "" "cr"
            = some ⟨"v1", "Pod", "cleanup", "uid-1", [⟨"v1", "Pod", "cleanup", "uid-1"⟩]⟩
        ∧ be2.lookup clusterRoleBindingGVR "" "crb"
            = some ⟨"v1", "Pod", "cleanup", "uid-1", [⟨"v1", "Pod", "cleanup", "uid-1"⟩]⟩ :=
  (C10_owner_chaining cCluster beFix ⟨⟨"t", "v1", "pods"⟩, "x", "nsy", true⟩).1
    ⟨"v1", "Pod", "cleanup", "uid-1", []⟩ ⟨"v1", "Pod", "cleanup", "uid-1", []⟩
    ⟨"v1", "Pod", "cleanup", "uid-1", []⟩ ⟨"v1", "Pod", "cleanup", "uid-1", []⟩
    (by decide) rfl rfl rfl rfl rfl rfl rfl

end SpectroCleanup
